import Mathlib

/-!
Verification of the command-to-task marketplace of the agentkit repository.

The Redis list `agent_tasks` (server/agents/a2a_marketplace.py, agents/command_poller.py)
is modelled as a `List`, with the head of the list being the *left* end of the
Redis list: `LPUSH` prepends at the head, `BRPOP` removes the element at the
tail.  Producers (`post_task`, `Poller.push_to_queue`) push with `LPUSH`;
workers claim with `BRPOP`.  Concurrency between workers is modelled as an
arbitrary serialization of the atomic queue operations.
-/

namespace AgentKit

/-- Redis LPUSH on the list `agent_tasks`: prepend at the left end. -/
def lpush {α : Type} (v : α) (q : List α) : List α := v :: q

/-- Redis BRPOP: atomically remove the element at the right end, or time out
returning nothing when the list is empty. -/
def brpop {α : Type} (q : List α) : Option α × List α :=
  match q.reverse with
  | [] => (none, q)
  | x :: rest => (some x, rest.reverse)

/-- One atomic operation on the shared queue: a producer push (`post_task` or
`push_to_queue`) or a worker claim (`claim_task`). -/
inductive QueueOp (α : Type) where
  | push (v : α)
  | claim
deriving DecidableEq

/-- Shared queue plus the history of successful claims, in the order the
`claim_task` calls completed. -/
structure MarketState (α : Type) where
  queue : List α
  claimed : List α
deriving DecidableEq

/-- Effect of one atomic queue operation on the marketplace state.  A claim on
an empty queue is `brpop` timing out: it returns `None` and claims nothing. -/
def marketStep {α : Type} (st : MarketState α) : QueueOp α → MarketState α
  | .push v => { st with queue := lpush v st.queue }
  | .claim =>
    match brpop st.queue with
    | (none, q) => { st with queue := q }
    | (some v, q) => { queue := q, claimed := st.claimed ++ [v] }

/-- Run a serialized trace of queue operations from the empty queue. -/
def marketRun {α : Type} (ops : List (QueueOp α)) : MarketState α :=
  ops.foldl marketStep ⟨[], []⟩

/-- The values pushed in a trace, in push order. -/
def pushedOf {α : Type} : List (QueueOp α) → List α
  | [] => []
  | .push v :: rest => v :: pushedOf rest
  | .claim :: rest => pushedOf rest

theorem marketStep_spec {α : Type} (st : MarketState α) (op : QueueOp α) :
    (marketStep st op).claimed ++ (marketStep st op).queue.reverse
      = st.claimed ++ st.queue.reverse ++ pushedOf [op] := by
  cases op with
  | push v => simp [marketStep, lpush, pushedOf]
  | claim =>
    cases hq : st.queue.reverse with
    | nil =>
      have : st.queue = [] := by simpa using congrArg List.reverse hq
      simp [marketStep, brpop, hq, this, pushedOf]
    | cons x rest =>
      simp only [marketStep, brpop, hq]
      simp [pushedOf, hq]

theorem marketFold_spec {α : Type} (ops : List (QueueOp α)) (st : MarketState α) :
    (ops.foldl marketStep st).claimed ++ (ops.foldl marketStep st).queue.reverse
      = st.claimed ++ st.queue.reverse ++ pushedOf ops := by
  induction ops generalizing st with
  | nil => simp [pushedOf]
  | cons op rest ih =>
    have hstep := marketStep_spec st op
    have := ih (marketStep st op)
    rw [List.foldl_cons]
    rw [this, hstep]
    cases op with
    | push v => simp [pushedOf]
    | claim => simp [pushedOf]

/-- C1. The task queue is strictly FIFO: along any serialized trace of atomic
pushes (`post_task` / `push_to_queue`, both `LPUSH`) and claims (`claim_task`,
`BRPOP`), the successful claims, in completion order, followed by the tasks
still queued (oldest first), equal the pushed tasks in push order; in
particular once every pushed task has been claimed, the claim order equals the
push order exactly, however many workers interleaved their claims. -/
theorem C1_fifo_queue {α : Type} (ops : List (QueueOp α)) :
    (marketRun ops).claimed ++ (marketRun ops).queue.reverse = pushedOf ops ∧
      ((marketRun ops).queue = [] → (marketRun ops).claimed = pushedOf ops) := by
  have h := marketFold_spec ops (⟨[], []⟩ : MarketState α)
  simp only [marketRun]
  constructor
  · simpa using h
  · intro hq
    have h' : (ops.foldl marketStep ⟨[], []⟩).claimed
        ++ (ops.foldl marketStep ⟨[], []⟩).queue.reverse = pushedOf ops := by
      simpa using h
    rw [hq] at h'
    simpa using h'

/-- Witness for C1: pushing three tasks and claiming three times returns them
in push order. -/
theorem C1_fifo_queue_witness :
    (marketRun [QueueOp.push "t1", QueueOp.push "t2", QueueOp.claim,
        QueueOp.push "t3", QueueOp.claim, QueueOp.claim]).queue = [] ∧
      (marketRun [QueueOp.push "t1", QueueOp.push "t2", QueueOp.claim,
        QueueOp.push "t3", QueueOp.claim, QueueOp.claim]).claimed
        = ["t1", "t2", "t3"] := by
  refine ⟨by decide, ?_⟩
  exact (C1_fifo_queue [QueueOp.push "t1", QueueOp.push "t2", QueueOp.claim,
    QueueOp.push "t3", QueueOp.claim, QueueOp.claim]).2 (by decide)

/-!
Retry wrapper of `ContentDistributionAgent._send_to_platform` (src/agent.py).
The python loop is `for attempt in range(1, 4)`: each attempt either succeeds
(the function returns), or raises; a raise on attempt 3 is re-raised to the
caller, a raise on an earlier attempt is followed by `time.sleep(2 ** attempt)`
and the next attempt.  The outcome of each attempt is external (network), so it
is a parameter `fails : Nat → Bool`.
-/

/-- Observable outcome of one `_send_to_platform` call: how many times the
send operation was attempted, the sleeps performed between attempts (seconds),
and whether an exception escaped to the caller. -/
structure SendOutcome where
  invocations : Nat
  sleeps : List Nat
  raised : Bool
deriving DecidableEq

/-- The `for attempt in range(1, 4)` retry loop of `_send_to_platform`. -/
def sendLoop (fails : Nat → Bool) : List Nat → Nat → List Nat → SendOutcome
  | [], inv, sl => ⟨inv, sl, false⟩
  | a :: rest, inv, sl =>
    if fails a then
      (if a = 3 then ⟨inv + 1, sl, true⟩
       else sendLoop fails rest (inv + 1) (sl ++ [2 ^ a]))
    else ⟨inv + 1, sl, false⟩

/-- One call of `ContentDistributionAgent._send_to_platform` with a configured
platform: attempts run for `attempt = 1, 2, 3`. -/
def sendToPlatform (fails : Nat → Bool) : SendOutcome :=
  sendLoop fails [1, 2, 3] 0 []

/-- A Result record as published on the Redis channel `agent_results` by
`publish_result` (server/agents/a2a_marketplace.py). -/
structure Result where
  job_id : String
  status : String
  result_data : List (String × String)
  completed_by : String
deriving DecidableEq

/-- A job record as posted by `post_task` and claimed by `claim_task`
(server/agents/a2a_marketplace.py). -/
structure Job where
  job_id : String
  task_type : String
  params : List (String × String)
  status : String
  posted_by : String
deriving DecidableEq

/-- Outcome of invoking a task handler: a returned result-data dict, or a
raised exception carrying its message. -/
inductive HandlerOutcome where
  | ok (data : List (String × String))
  | exn (msg : String)

/-- The keys of the `handlers` dict in the SpecialistAgent dispatch loop
(server/agents/specialist_agents.py, `run`). -/
def specialistHandlerTypes : List String :=
  ["START_CAMPAIGN", "REFACTOR_CODE", "PROVISION_INFRA", "CONNECT_INTEGRATION",
   "DISTRIBUTE_CONTENT", "CHECK_INTEGRATION_STATUS", "REFRESH_TOKEN",
   "SYNC_AUDIENCE"]

/-- Whether `pat` is an initial segment of `text`. -/
def charsLeadWith : List Char → List Char → Bool
  | [], _ => true
  | _ :: _, [] => false
  | a :: as, b :: bs => a == b && charsLeadWith as bs

/-- Whether `pat` occurs contiguously somewhere in the text. -/
def charsContain (pat : List Char) : List Char → Bool
  | [] => charsLeadWith pat []
  | c :: rest => charsLeadWith pat (c :: rest) || charsContain pat rest

/-- Python substring test `pat in s`. -/
def containsSub (s pat : String) : Bool := charsContain pat.data s.data

/-- The `except` branch of the SpecialistAgent loop body: the special case for
a missing Mailchimp API key, otherwise the stringified exception. -/
def errorData (e : String) : List (String × String) :=
  if containsSub e "MAILCHIMP_API_KEY" then
    [("error", "Mailchimp API key not configured.")]
  else
    [("error", e)]

/-- Observable effect of one iteration of a worker dispatch loop on one claimed
task: the Results published on `agent_results`, the records pushed back onto
`agent_tasks`, and how many times the handler was invoked. -/
structure WorkerEffect where
  published : List Result
  requeued : List Job
  invocations : Nat
deriving DecidableEq

/-- One iteration of the SpecialistAgent dispatch loop (specialist_agents.py,
`run`) on a claimed task.  The handler table lookup is embedded from the
source; the behaviour of the handler itself is external, passed as
`handlerRun`.  A task whose type is not in the table is skipped with
`continue`: nothing is published and nothing is pushed back.  A handler
exception is caught; `status` keeps its initial value `"FAILED"` and the error
is recorded in `result_data` before `publish_result` runs. -/
def specialistStep (handlerRun : String → List (String × String) → HandlerOutcome)
    (task : Job) : WorkerEffect :=
  if specialistHandlerTypes.contains task.task_type then
    match handlerRun task.task_type task.params with
    | .ok data => ⟨[⟨task.job_id, "SUCCESS", data, "SpecialistAgent"⟩], [], 1⟩
    | .exn e => ⟨[⟨task.job_id, "FAILED", errorData e, "SpecialistAgent"⟩], [], 1⟩
  else
    ⟨[], [], 0⟩

theorem sendToPlatform_allFail (fails : Nat → Bool) (h : ∀ a, fails a = true) :
    sendToPlatform fails = ⟨3, [2, 4], true⟩ := by
  simp [sendToPlatform, sendLoop, h]

theorem sendToPlatform_secondTry (fails : Nat → Bool)
    (h1 : fails 1 = true) (h2 : fails 2 = false) :
    sendToPlatform fails = ⟨2, [2], false⟩ := by
  simp [sendToPlatform, sendLoop, h1, h2]

theorem specialistStep_exn (handlerRun : String → List (String × String) → HandlerOutcome)
    (task : Job) (e : String)
    (ht : specialistHandlerTypes.contains task.task_type = true)
    (hr : handlerRun task.task_type task.params = .exn e) :
    specialistStep handlerRun task
      = ⟨[⟨task.job_id, "FAILED", errorData e, "SpecialistAgent"⟩], [], 1⟩ := by
  simp only [specialistStep, ht]
  simp [hr]

/-- C2 counterexample. The claim pairs "invoked exactly 3 times with backoff"
with "a FAILED Result is emitted", but the worker that emits Results
(SpecialistAgent) invokes a handler that always raises exactly once, not 3
times: there is no retry in its dispatch loop. -/
theorem C2_retry_counterexample :
    (specialistStep (fun _ _ => .exn "boom")
        ⟨"j1", "START_CAMPAIGN", [("campaign_id", "c1")], "PENDING", "PM"⟩).invocations
      ≠ 3 := by
  decide

/-- C2 (amended). In `ContentDistributionAgent._send_to_platform`, a send that
raises on every attempt is invoked exactly 3 times with inter-attempt sleeps
of 2^1 = 2 and 2^2 = 4 seconds, after which the exception is re-raised to
`distribute`, which catches and logs it — no Result record is emitted by that
agent; a send succeeding on attempt 2 is invoked exactly 2 times, with a
single 2-second sleep, and returns normally.  The SpecialistAgent worker,
which does emit Results, invokes its handler exactly once per claimed task: a
raising handler yields one invocation and one FAILED Result, with no retry and
no sleep. -/
theorem C2_retry_policy (fails : Nat → Bool)
    (handlerRun : String → List (String × String) → HandlerOutcome)
    (task : Job) (e : String)
    (hall : ∀ a, fails a = true)
    (ht : specialistHandlerTypes.contains task.task_type = true)
    (hr : handlerRun task.task_type task.params = .exn e) :
    sendToPlatform fails = ⟨3, [2, 4], true⟩ ∧
      (∀ g : Nat → Bool, g 1 = true → g 2 = false →
        sendToPlatform g = ⟨2, [2], false⟩) ∧
      specialistStep handlerRun task
        = ⟨[⟨task.job_id, "FAILED", errorData e, "SpecialistAgent"⟩], [], 1⟩ := by
  exact ⟨sendToPlatform_allFail fails hall,
    fun g h1 h2 => sendToPlatform_secondTry g h1 h2,
    specialistStep_exn handlerRun task e ht hr⟩

/-- Witness for C2: the amended claim at an always-failing sender and a
raising START_CAMPAIGN handler. -/
theorem C2_retry_policy_witness :
    sendToPlatform (fun _ => true) = ⟨3, [2, 4], true⟩ ∧
      (∀ g : Nat → Bool, g 1 = true → g 2 = false →
        sendToPlatform g = ⟨2, [2], false⟩) ∧
      specialistStep (fun _ _ => .exn "boom")
          ⟨"j1", "START_CAMPAIGN", [("campaign_id", "c1")], "PENDING", "PM"⟩
        = ⟨[⟨"j1", "FAILED", [("error", "boom")], "SpecialistAgent"⟩], [], 1⟩ := by
  have h := C2_retry_policy (fun _ => true) (fun _ _ => .exn "boom")
    ⟨"j1", "START_CAMPAIGN", [("campaign_id", "c1")], "PENDING", "PM"⟩ "boom"
    (fun _ => rfl) (by decide) rfl
  refine ⟨h.1, h.2.1, ?_⟩
  have h3 := h.2.2
  rw [h3]
  decide

/-- A task record as built by `Poller.push_to_queue` (agents/command_poller.py)
and consumed by the site-scanner and report-generator loops: the validated
command dict `{type, params, raw}` extended with `id` and `ts`. -/
structure QRecord where
  type : String
  params : List (String × String)
  raw : String
  id : String
  ts : String
deriving DecidableEq

/-- One iteration of `SiteScanner.loop` (agents/site_scanner.py) after `brpop`
returned record `r`, with `q` the remaining queue: a `SCAN_SITE` task is
handled, any other task is pushed back onto `agent_tasks` unchanged with
`lpush`.  Returns the queue afterwards and whether the record was handled. -/
def scannerStep (r : QRecord) (q : List QRecord) : List QRecord × Bool :=
  if r.type = "SCAN_SITE" then (q, true) else (lpush r q, false)

/-- Outcome of `ReportGenerator.handle_report_task`: a report path, or a
raised exception. -/
inductive ReportOutcome where
  | ok (path : String)
  | exn (msg : String)

/-- One iteration of `ReportGenerator.loop` (agents/report_generator.py) after
`brpop` returned record `r`, with `q` the remaining queue.  A
`PUBLISH_REPORT` task is handled; if the handler raises, the `except` branch
logs the error and continues.  Any other task is pushed back unchanged.  The
loop never publishes on the results channel, so the second component (Results
published) is empty in every branch. -/
def reportStep (handlerRun : QRecord → ReportOutcome) (r : QRecord)
    (q : List QRecord) : List QRecord × List Result :=
  if r.type = "PUBLISH_REPORT" then
    match handlerRun r with
    | .ok _ => (q, [])
    | .exn _ => (q, [])
  else (lpush r q, [])

/-- C3 counterexample. The SpecialistAgent worker claims a task whose type
("SCAN_SITE") has no entry in its handler table and skips it with `continue`:
nothing is pushed back onto the queue, so the task is discarded, not
returned. -/
theorem C3_requeue_counterexample :
    (specialistStep (fun _ _ => .ok [])
        ⟨"j2", "SCAN_SITE", [("domain", "example.com")], "PENDING", "PM"⟩).requeued
        = [] ∧
      specialistHandlerTypes.contains "SCAN_SITE" = false := by
  decide

/-- C3 (amended). The site-scanner and report-generator workers return a
claimed task whose type they do not handle to the queue unchanged (an `lpush`
of the same record onto `agent_tasks`), so it remains claimable by another
worker; the SpecialistAgent worker, by contrast, skips a claimed task whose
type has no registered handler without re-queueing it, so that task is
discarded. -/
theorem C3_unknown_type_requeue (r : QRecord) (q : List QRecord)
    (handlerRun : QRecord → ReportOutcome)
    (specialistRun : String → List (String × String) → HandlerOutcome)
    (task : Job)
    (hscan : r.type ≠ "SCAN_SITE") (hrep : r.type ≠ "PUBLISH_REPORT")
    (htab : specialistHandlerTypes.contains task.task_type = false) :
    scannerStep r q = (lpush r q, false) ∧
      r ∈ (scannerStep r q).1 ∧
      reportStep handlerRun r q = (lpush r q, []) ∧
      specialistStep specialistRun task = ⟨[], [], 0⟩ := by
  refine ⟨by simp [scannerStep, hscan], ?_, by simp [reportStep, hrep], ?_⟩
  · simp [scannerStep, hscan, lpush]
  · unfold specialistStep
    rw [htab]
    simp

/-- Witness for C3 (amended): an UPDATE_NOTION record is re-queued unchanged
by both loops, and a SCAN_SITE job is discarded by the SpecialistAgent. -/
theorem C3_unknown_type_requeue_witness :
    scannerStep ⟨"UPDATE_NOTION", [], "UPDATE_NOTION", "i", "t"⟩ []
        = (lpush ⟨"UPDATE_NOTION", [], "UPDATE_NOTION", "i", "t"⟩ [], false) ∧
      ⟨"UPDATE_NOTION", [], "UPDATE_NOTION", "i", "t"⟩ ∈
        (scannerStep ⟨"UPDATE_NOTION", [], "UPDATE_NOTION", "i", "t"⟩ []).1 ∧
      reportStep (fun _ => .ok "p") ⟨"UPDATE_NOTION", [], "UPDATE_NOTION", "i", "t"⟩ []
        = (lpush ⟨"UPDATE_NOTION", [], "UPDATE_NOTION", "i", "t"⟩ [], []) ∧
      specialistStep (fun _ _ => .ok [])
          ⟨"j2", "SCAN_SITE", [("domain", "example.com")], "PENDING", "PM"⟩
        = ⟨[], [], 0⟩ :=
  C3_unknown_type_requeue ⟨"UPDATE_NOTION", [], "UPDATE_NOTION", "i", "t"⟩ []
    (fun _ => .ok "p") (fun _ _ => .ok [])
    ⟨"j2", "SCAN_SITE", [("domain", "example.com")], "PENDING", "PM"⟩
    (by decide) (by decide) (by decide)

/-- C7 counterexample. The report-generator worker claims a PUBLISH_REPORT
task whose handler raises; the loop catches the exception and only logs it —
no Result is published on the results channel, so this execution failure never
reaches the audit trail. -/
theorem C7_failed_result_counterexample :
    (reportStep (fun _ => .exn "disk full")
        ⟨"PUBLISH_REPORT", [("client", "acme"), ("dataset", "q3"), ("format", "pdf")],
          "PUBLISH_REPORT client=acme dataset=q3 format=pdf", "i", "t"⟩ []).2
      = [] := by
  decide

/-- C7 (amended). The SpecialistAgent worker never crashes on a handler
exception: the exception is caught and converted into a Result with status
FAILED carrying the error message in `result_data`, which is published on the
results channel.  The report-generator (and site-scanner) loops also survive
handler exceptions, but they only log them: no Result of any kind is published
by those workers, so their failures are visible in logs only, not in the audit
trail. -/
theorem C7_handler_exception_caught
    (handlerRun : String → List (String × String) → HandlerOutcome)
    (task : Job) (e : String)
    (reportRun : QRecord → ReportOutcome) (r : QRecord) (q : List QRecord)
    (ht : specialistHandlerTypes.contains task.task_type = true)
    (hr : handlerRun task.task_type task.params = .exn e) :
    specialistStep handlerRun task
      = ⟨[⟨task.job_id, "FAILED", errorData e, "SpecialistAgent"⟩], [], 1⟩ ∧
      (reportStep reportRun r q).2 = [] := by
  refine ⟨specialistStep_exn handlerRun task e ht hr, ?_⟩
  unfold reportStep
  split
  · cases reportRun r <;> simp
  · simp

/-- Witness for C7 (amended): a raising SYNC_AUDIENCE handler yields exactly
one FAILED Result from the SpecialistAgent, and a raising report handler
yields no published Result. -/
theorem C7_handler_exception_caught_witness :
    specialistStep (fun _ _ => .exn "MAILCHIMP_API_KEY missing")
        ⟨"j3", "SYNC_AUDIENCE", [("audience_id", "a"), ("dest_platform", "d")],
          "PENDING", "PM"⟩
      = ⟨[⟨"j3", "FAILED", [("error", "Mailchimp API key not configured.")],
          "SpecialistAgent"⟩], [], 1⟩ ∧
      (reportStep (fun _ => .exn "disk full")
        ⟨"X", [], "X", "i", "t"⟩ []).2 = [] := by
  have h := C7_handler_exception_caught (fun _ _ => .exn "MAILCHIMP_API_KEY missing")
    ⟨"j3", "SYNC_AUDIENCE", [("audience_id", "a"), ("dest_platform", "d")],
      "PENDING", "PM"⟩ "MAILCHIMP_API_KEY missing"
    (fun _ => .exn "disk full") ⟨"X", [], "X", "i", "t"⟩ []
    (by decide) rfl
  refine ⟨?_, h.2⟩
  rw [h.1]
  decide

/-!
The producer (`Poller`, agents/command_poller.py): tokenizer, cerberus
validation against `SCHEMAS`, dedup set, kill switch and queue push.
-/

/-- Helper for `splitWs`: accumulate the current word (reversed) while
splitting on whitespace runs. -/
def splitWsGo : List Char → List Char → List String
  | [], cur => if cur = [] then [] else [⟨cur.reverse⟩]
  | c :: rest, cur =>
    if c.isWhitespace then
      (if cur = [] then splitWsGo rest [] else ⟨cur.reverse⟩ :: splitWsGo rest [])
    else splitWsGo rest (c :: cur)

/-- Python `raw.split()`: split on whitespace runs, dropping empty pieces. -/
def splitWs (raw : String) : List String := splitWsGo raw.data []

/-- Helper for `splitOnEq`. -/
def splitOnEqGo : List Char → List Char → List String
  | [], cur => [⟨cur.reverse⟩]
  | c :: rest, cur =>
    if c = '=' then ⟨cur.reverse⟩ :: splitOnEqGo rest []
    else splitOnEqGo rest (c :: cur)

/-- Python `p.split("=")`: split on every occurrence of the character. -/
def splitOnEq (s : String) : List String := splitOnEqGo s.data []

/-- Python `str.upper()` on the keyword. -/
def strUpper (s : String) : String := ⟨s.data.map Char.toUpper⟩

/-- One field rule of a cerberus schema as used in `SCHEMAS`: every field
there has `type: string`; `required` and an optional `allowed` list vary. -/
structure FieldRule where
  required : Bool
  allowed : Option (List String)
deriving DecidableEq

/-- The `SCHEMAS` registry of agents/command_poller.py. -/
def SCHEMAS : List (String × List (String × FieldRule)) :=
  [("SCAN_SITE", [("domain", ⟨true, none⟩)]),
   ("PUBLISH_REPORT",
     [("client", ⟨true, none⟩), ("dataset", ⟨true, none⟩),
      ("format", ⟨true, some ["pdf", "csv"]⟩)]),
   ("DISTRIBUTE_CONTENT", [("content_file", ⟨true, none⟩)]),
   ("UPDATE_NOTION", [("page_id", ⟨true, none⟩), ("content", ⟨true, none⟩)]),
   ("KILL_SWITCH", [])]

/-- Cerberus `Validator(schema).validate(doc)` for the rule set used in
`SCHEMAS`: every required field must be present, every document key must be
declared in the schema (cerberus rejects unknown fields by default), and a
field with an `allowed` list must take one of the allowed values.  All values
are strings, so the `type: string` rule always holds. -/
def cerberusValidate (schema : List (String × FieldRule))
    (doc : List (String × String)) : Bool :=
  (schema.all fun kv => !kv.2.required || (doc.lookup kv.1).isSome) &&
    (doc.all fun kv =>
      match schema.lookup kv.1 with
      | none => false
      | some rule =>
        match rule.allowed with
        | none => true
        | some vs => vs.contains kv.2)

/-- Python dict insertion for the params comprehension: a later binding of an
existing key overwrites its value in place. -/
def dictInsert (m : List (String × String)) (k v : String) :
    List (String × String) :=
  if (m.lookup k).isSome then
    m.map fun kv => if kv.1 == k then (k, v) else kv
  else m ++ [(k, v)]

/-- The params dict comprehension of `Poller.validate`:
tokens containing `=` contribute `split("=")[0] : split("=")[1]`. -/
def parseParams (tokens : List String) : List (String × String) :=
  tokens.foldl (fun m p =>
    match splitOnEq p with
    | k :: v :: _ => dictInsert m k v
    | _ => m) []

/-- A validated command as returned by `Poller.validate`:
the dict `{"type": cmd, "params": params, "raw": raw}`. -/
structure Command where
  type : String
  params : List (String × String)
  raw : String
deriving DecidableEq

/-- `Poller.validate` (agents/command_poller.py): tokenize, uppercase the
keyword, reject keywords not in `SCHEMAS`, build the params dict from the
`key=value` tokens, and run cerberus validation.  (On an all-whitespace line
the source would raise IndexError on `parts[0]`; its callers only pass
stripped non-empty lines, modelled here as rejection.) -/
def validate (raw : String) : Option Command :=
  match splitWs raw with
  | [] => none
  | w :: rest =>
    let cmd := strUpper w
    match SCHEMAS.lookup cmd with
    | none => none
    | some schema =>
      let params := parseParams rest
      if cerberusValidate schema params then some ⟨cmd, params, raw⟩ else none

/-- The record pushed by `Poller.push_to_queue`: the validated command
extended with `id := hash(raw)` and the timestamp.  The hash is the truncated
SHA-256 of `_hash`, a fixed function of `raw` alone, abstracted as `h`. -/
def mkQRecord (h : String → String) (ts : String) (task : Command) : QRecord :=
  ⟨task.type, task.params, task.raw, h task.raw, ts⟩

/-- State of one `Poller` process together with the shared Redis state it
touches.  `processed` is the in-memory dedup set, `killSwitchActive` the local
flag, `redisKill` the shared kill-switch key, `queue` the Redis list
`agent_tasks`, `notionCalls` the Notion page updates issued.  `validated` and
`producedTasks` record each call of `validate` and each validated command
passed to `execute_command`, in order. -/
structure PollerState where
  processed : List String
  killSwitchActive : Bool
  redisKill : Bool
  queue : List QRecord
  notionCalls : List (String × String)
  validated : List String
  producedTasks : List Command
deriving DecidableEq

/-- The fresh state of `Poller.__init__` with an empty queue and unset kill
key. -/
def initState : PollerState := ⟨[], false, false, [], [], [], []⟩

/-- `Poller.check_kill_switch`: read the shared kill key; when set, also set
the local flag. -/
def check_kill_switch (st : PollerState) : Bool × PollerState :=
  if st.redisKill then (true, { st with killSwitchActive := true })
  else (false, st)

/-- `Poller.execute_command`: UPDATE_NOTION is executed directly,
KILL_SWITCH sets the shared kill key and the local flag (bypassing the
queue), everything else is pushed onto `agent_tasks` by `push_to_queue`. -/
def execute_command (h : String → String) (ts : String) (st : PollerState)
    (task : Command) : PollerState :=
  if task.type = "UPDATE_NOTION" then
    { st with notionCalls := st.notionCalls ++
        [((task.params.lookup "page_id").getD "",
          (task.params.lookup "content").getD "")] }
  else if task.type = "KILL_SWITCH" then
    { st with redisKill := true, killSwitchActive := true }
  else
    { st with queue := lpush (mkQRecord h ts task) st.queue }

/-- The body of the `for line in commands` loop of `Poller.run_once`: skip a
line already in the dedup set before validating; otherwise validate, and on
success execute the command and mark the line seen. -/
def processLine (h : String → String) (ts : String) (st : PollerState)
    (line : String) : PollerState :=
  if st.processed.contains line then st
  else
    let st₁ := { st with validated := st.validated ++ [line] }
    match validate line with
    | none => st₁
    | some task =>
      let st₂ := execute_command h ts
        { st₁ with producedTasks := st₁.producedTasks ++ [task] } task
      { st₂ with processed := st₂.processed ++ [line] }

/-- `Poller.run_once`: return immediately when the shared kill key is set,
otherwise process every line of the batch in order.  The kill key is read
once, at the start of the cycle. -/
def run_once (h : String → String) (ts : String) (lines : List String)
    (st : PollerState) : PollerState :=
  match check_kill_switch st with
  | (true, st') => st'
  | (false, st') => lines.foldl (processLine h ts) st'

/-- Successive poll cycles of `Poller.run_forever`, one batch of input lines
per cycle. -/
def runCycles (h : String → String) (ts : String)
    (batches : List (List String)) (st : PollerState) : PollerState :=
  batches.foldl (fun s b => run_once h ts b s) st

/-- C6. The validator accepts `SCAN_SITE domain=example.com` and
`PUBLISH_REPORT client=acme dataset=q3 format=pdf`; it rejects `SCAN_SITE`
with no params (missing required field) and `PUBLISH_REPORT` with
`format=ppt` (format must be pdf or csv); the keyword is matched
case-insensitively; tokens without `=` are ignored; every raw line whose
keyword is not in `SCHEMAS` is rejected, and a rejected line is never
enqueued or executed by `run_once`. -/
theorem C6_schema_table :
    validate "SCAN_SITE domain=example.com"
        = some ⟨"SCAN_SITE", [("domain", "example.com")],
            "SCAN_SITE domain=example.com"⟩ ∧
      validate "SCAN_SITE" = none ∧
      validate "PUBLISH_REPORT client=acme dataset=q3 format=pdf"
        = some ⟨"PUBLISH_REPORT",
            [("client", "acme"), ("dataset", "q3"), ("format", "pdf")],
            "PUBLISH_REPORT client=acme dataset=q3 format=pdf"⟩ ∧
      validate "PUBLISH_REPORT client=acme dataset=q3 format=ppt" = none ∧
      validate "scan_site domain=example.com"
        = some ⟨"SCAN_SITE", [("domain", "example.com")],
            "scan_site domain=example.com"⟩ ∧
      validate "SCAN_SITE domain=example.com junk"
        = some ⟨"SCAN_SITE", [("domain", "example.com")],
            "SCAN_SITE domain=example.com junk"⟩ ∧
      (∀ raw w rest, splitWs raw = w :: rest →
        SCHEMAS.lookup (strUpper w) = none → validate raw = none) ∧
      (∀ (h : String → String) (ts : String) (st : PollerState) (line : String),
        validate line = none →
          (processLine h ts st line).queue = st.queue ∧
          (processLine h ts st line).producedTasks = st.producedTasks ∧
          (processLine h ts st line).notionCalls = st.notionCalls) := by
  refine ⟨by decide, by decide, by decide, by decide, by decide, by decide, ?_, ?_⟩
  · intro raw w rest hsplit hlook
    unfold validate
    rw [hsplit]
    simp only [hlook]
  · intro h ts st line hv
    cases hc : st.processed.contains line with
    | true =>
      simp only [processLine, hc]
      simp
    | false =>
      simp only [processLine, hc, hv]
      simp

/-- Witness for C6: the universally quantified parts at a concrete unknown
keyword and a concrete rejected line. -/
theorem C6_schema_table_witness :
    validate "FROBNICATE x=1" = none ∧
      (processLine (fun _ => "i") "t0" initState "FROBNICATE x=1").queue
        = initState.queue := by
  have h := C6_schema_table
  have hun : validate "FROBNICATE x=1" = none :=
    h.2.2.2.2.2.2.1 "FROBNICATE x=1" "FROBNICATE" ["x=1"] (by decide) (by decide)
  exact ⟨hun,
    (h.2.2.2.2.2.2.2 (fun _ => "i") "t0" initState "FROBNICATE x=1" hun).1⟩

theorem execute_command_kill (h : String → String) (ts : String)
    (st : PollerState) (task : Command) (hty : task.type = "KILL_SWITCH") :
    execute_command h ts st task
      = { st with redisKill := true, killSwitchActive := true } := by
  unfold execute_command
  rw [hty]
  simp

theorem execute_command_redisKill (h : String → String) (ts : String)
    (st : PollerState) (task : Command) (hk : st.redisKill = true) :
    (execute_command h ts st task).redisKill = true := by
  unfold execute_command
  split_ifs <;> simp [hk]

theorem processLine_redisKill (h : String → String) (ts : String)
    (st : PollerState) (line : String) (hk : st.redisKill = true) :
    (processLine h ts st line).redisKill = true := by
  unfold processLine
  split
  · exact hk
  · cases hv : validate line with
    | none => simpa using hk
    | some task =>
      simp only [hv]
      exact execute_command_redisKill h ts _ task (by simpa using hk)

theorem run_once_killed (h : String → String) (ts : String)
    (lines : List String) (st : PollerState) (hk : st.redisKill = true) :
    run_once h ts lines st = { st with killSwitchActive := true } := by
  simp [run_once, check_kill_switch, hk]

theorem runCycles_killed (h : String → String) (ts : String)
    (batches : List (List String)) (st : PollerState) (hk : st.redisKill = true) :
    (runCycles h ts batches st).queue = st.queue ∧
      (runCycles h ts batches st).redisKill = true ∧
      (runCycles h ts batches st).producedTasks = st.producedTasks := by
  induction batches generalizing st with
  | nil => simp [runCycles, hk]
  | cons b rest ih =>
    simp only [runCycles, List.foldl_cons]
    rw [run_once_killed h ts b st hk]
    have := ih { st with killSwitchActive := true } (by simpa using hk)
    simpa [runCycles] using this

/-- C4. Processing a KILL_SWITCH command sets the shared kill key directly
without touching the queue; once the key is set, every subsequent poll cycle
(`run_once`) returns before reading any input, so it enqueues zero new tasks
and produces nothing, whatever the later batches contain; and the transition
is one-way: no modelled operation (`execute_command`, `processLine`,
`run_once`) ever resets the key. -/
theorem C4_kill_switch (h : String → String) (ts : String) (st : PollerState)
    (task : Command) (hty : task.type = "KILL_SWITCH") :
    (execute_command h ts st task).redisKill = true ∧
      (execute_command h ts st task).queue = st.queue ∧
      (∀ st' lines, st'.redisKill = true →
        run_once h ts lines st' = { st' with killSwitchActive := true }) ∧
      (∀ batches,
        (runCycles h ts batches (execute_command h ts st task)).queue
            = st.queue ∧
          (runCycles h ts batches (execute_command h ts st task)).producedTasks
            = (execute_command h ts st task).producedTasks ∧
          (runCycles h ts batches (execute_command h ts st task)).redisKill
            = true) ∧
      (∀ st₂ t₂, st₂.redisKill = true →
        (execute_command h ts st₂ t₂).redisKill = true) ∧
      (∀ st₃ line, st₃.redisKill = true →
        (processLine h ts st₃ line).redisKill = true) := by
  have hex := execute_command_kill h ts st task hty
  refine ⟨by rw [hex], by rw [hex], fun st' lines hk => run_once_killed h ts lines st' hk,
    fun batches => ?_, fun st₂ t₂ hk => execute_command_redisKill h ts st₂ t₂ hk,
    fun st₃ line hk => processLine_redisKill h ts st₃ line hk⟩
  have hk1 : (execute_command h ts st task).redisKill = true := by rw [hex]
  have hrun := runCycles_killed h ts batches (execute_command h ts st task) hk1
  refine ⟨?_, hrun.2.2, hrun.2.1⟩
  rw [hrun.1, hex]

/-- Witness for C4: after processing KILL_SWITCH from the fresh state, two
further poll cycles with valid input lines enqueue nothing. -/
theorem C4_kill_switch_witness :
    (execute_command (fun _ => "i") "t0" initState
        ⟨"KILL_SWITCH", [], "KILL_SWITCH"⟩).redisKill = true ∧
      (runCycles (fun _ => "i") "t0"
          [["SCAN_SITE domain=example.com"], ["DISTRIBUTE_CONTENT content_file=post.txt"]]
          (execute_command (fun _ => "i") "t0" initState
            ⟨"KILL_SWITCH", [], "KILL_SWITCH"⟩)).queue = [] := by
  have h := C4_kill_switch (fun _ => "i") "t0" initState
    ⟨"KILL_SWITCH", [], "KILL_SWITCH"⟩ rfl
  exact ⟨h.1,
    (h.2.2.2.1 [["SCAN_SITE domain=example.com"],
      ["DISTRIBUTE_CONTENT content_file=post.txt"]]).1⟩

theorem validate_raw {raw : String} {t : Command} (hv : validate raw = some t) :
    t.raw = raw := by
  unfold validate at hv
  cases hs : splitWs raw with
  | nil => rw [hs] at hv; simp at hv
  | cons w rest =>
    rw [hs] at hv
    cases hl : SCHEMAS.lookup (strUpper w) with
    | none => simp [hl] at hv
    | some schema =>
      simp only [hl] at hv
      by_cases hc : cerberusValidate schema (parseParams rest) = true
      · simp only [hc, if_true] at hv
        cases hv
        rfl
      · simp [hc] at hv

theorem execute_command_producedTasks (h : String → String) (ts : String)
    (st : PollerState) (task : Command) :
    (execute_command h ts st task).producedTasks = st.producedTasks := by
  unfold execute_command
  split_ifs <;> rfl

theorem execute_command_processed (h : String → String) (ts : String)
    (st : PollerState) (task : Command) :
    (execute_command h ts st task).processed = st.processed := by
  unfold execute_command
  split_ifs <;> rfl

/-- Counting invariant of the dedup set: the number of commands produced from
raw line `L` is 1 when `L` is in the dedup set and 0 otherwise. -/
def DedupInv (L : String) (st : PollerState) : Prop :=
  st.producedTasks.countP (fun t => t.raw == L)
    = if st.processed.contains L then 1 else 0

theorem processLine_dedup (h : String → String) (ts : String) (L : String)
    (st : PollerState) (line : String) (inv : DedupInv L st) :
    DedupInv L (processLine h ts st line) := by
  unfold DedupInv at inv ⊢
  cases hc : st.processed.contains line with
  | true => simp only [processLine, hc, if_true]; exact inv
  | false =>
    cases hv : validate line with
    | none =>
      simp only [processLine, hc, hv]
      simpa using inv
    | some task =>
      have htraw : task.raw = line := validate_raw hv
      simp only [processLine, hc, hv]
      simp only [execute_command_producedTasks, execute_command_processed,
        List.countP_append]
      by_cases heq : line = L
      · subst heq
        have hzero : st.producedTasks.countP (fun t => t.raw == line) = 0 := by
          rw [inv, hc]
          simp
        simp [hzero, htraw]
      · have hne : (task.raw == L) = false := by
          rw [htraw]
          exact beq_false_of_ne heq
        have hLl : ¬ L = line := fun hx => heq hx.symm
        simp [hne, hLl, inv]

theorem run_once_dedup (h : String → String) (ts : String) (L : String)
    (lines : List String) (st : PollerState) (inv : DedupInv L st) :
    DedupInv L (run_once h ts lines st) := by
  unfold run_once check_kill_switch
  by_cases hk : st.redisKill = true
  · simp only [hk, if_true]
    exact inv
  · simp only [Bool.not_eq_true] at hk
    simp only [hk]
    simp only [Bool.false_eq_true, if_false]
    clear hk
    induction lines generalizing st with
    | nil => exact inv
    | cons l rest ih =>
      exact ih (processLine h ts st l) (processLine_dedup h ts L st l inv)

theorem runCycles_dedup (h : String → String) (ts : String) (L : String)
    (batches : List (List String)) (st : PollerState) (inv : DedupInv L st) :
    DedupInv L (runCycles h ts batches st) := by
  induction batches generalizing st with
  | nil => exact inv
  | cons b rest ih =>
    exact ih (run_once h ts b st) (run_once_dedup h ts L b st inv)

/-- C5. Over any sequence of poll cycles from a fresh producer, a raw line
`L` produces a command at most once: the number of validated commands with
raw text `L` ever handed to `execute_command` is 1 if `L` is in the dedup set
and 0 otherwise, hence never exceeds 1; and once a line is in the dedup set,
`processLine` returns the state unchanged — it is skipped before validation,
with no new `validate` call, no execution and no enqueue. -/
theorem C5_dedup_idempotent (h : String → String) (ts : String) (L : String)
    (batches : List (List String)) :
    ((runCycles h ts batches initState).producedTasks.countP (fun t => t.raw == L)
        = if (runCycles h ts batches initState).processed.contains L then 1
          else 0) ∧
      (runCycles h ts batches initState).producedTasks.countP
          (fun t => t.raw == L) ≤ 1 ∧
      (∀ st line, st.processed.contains line = true →
        processLine h ts st line = st) := by
  have hinv : DedupInv L (runCycles h ts batches initState) :=
    runCycles_dedup h ts L batches initState (by simp [DedupInv, initState])
  refine ⟨hinv, ?_, ?_⟩
  · rw [hinv]
    split <;> simp
  · intro st line hc
    simp only [processLine, hc, if_true]

/-- Witness for C5: submitting `SCAN_SITE domain=example.com` in two
successive cycles produces exactly one command, and a processed line is
skipped without any state change. -/
theorem C5_dedup_idempotent_witness :
    ((runCycles (fun _ => "i") "t0"
        [["SCAN_SITE domain=example.com"], ["SCAN_SITE domain=example.com"]]
        initState).producedTasks.countP
          (fun t => t.raw == "SCAN_SITE domain=example.com")
        = if (runCycles (fun _ => "i") "t0"
            [["SCAN_SITE domain=example.com"], ["SCAN_SITE domain=example.com"]]
            initState).processed.contains "SCAN_SITE domain=example.com" then 1
          else 0) ∧
      (runCycles (fun _ => "i") "t0"
          [["SCAN_SITE domain=example.com"], ["SCAN_SITE domain=example.com"]]
          initState).producedTasks.countP
            (fun t => t.raw == "SCAN_SITE domain=example.com") ≤ 1 ∧
      processLine (fun _ => "i") "t0"
          ⟨["x y"], false, false, [], [], ["x y"], []⟩ "x y"
        = ⟨["x y"], false, false, [], [], ["x y"], []⟩ := by
  have h := C5_dedup_idempotent (fun _ => "i") "t0"
    "SCAN_SITE domain=example.com"
    [["SCAN_SITE domain=example.com"], ["SCAN_SITE domain=example.com"]]
  exact ⟨h.1, h.2.1,
    h.2.2 ⟨["x y"], false, false, [], [], ["x y"], []⟩ "x y" (by decide)⟩

/-- C10. Within a single `run_once` call the kill-switch state is read only
once, at entry: the per-line step enqueues or executes a valid unseen line
for an arbitrary state, including states in which a KILL_SWITCH line earlier
in the same batch has already set both kill flags; with the kill key unset at
entry, the cycle is exactly the fold of the per-line step over the whole
batch; with the kill key set at entry, the cycle processes nothing.
Concretely, in the batch `["KILL_SWITCH", "SCAN_SITE domain=example.com"]`
the scan line is still validated and enqueued after the kill switch fires. -/
theorem C10_kill_switch_same_cycle (h : String → String) (ts : String) :
    (∀ (st : PollerState) (line : String) (t : Command),
      st.processed.contains line = false → validate line = some t →
        t.type ≠ "UPDATE_NOTION" → t.type ≠ "KILL_SWITCH" →
        (processLine h ts st line).queue = lpush (mkQRecord h ts t) st.queue) ∧
      (∀ (st : PollerState) (line : String) (t : Command),
        st.processed.contains line = false → validate line = some t →
          t.type = "UPDATE_NOTION" →
          (processLine h ts st line).notionCalls = st.notionCalls ++
            [((t.params.lookup "page_id").getD "",
              (t.params.lookup "content").getD "")]) ∧
      (∀ (st : PollerState) (lines : List String), st.redisKill = false →
        run_once h ts lines st = lines.foldl (processLine h ts) st) ∧
      (∀ (st : PollerState) (lines : List String), st.redisKill = true →
        run_once h ts lines st = { st with killSwitchActive := true }) ∧
      (run_once h ts ["KILL_SWITCH", "SCAN_SITE domain=example.com"] initState).queue
        = [mkQRecord h ts ⟨"SCAN_SITE", [("domain", "example.com")],
            "SCAN_SITE domain=example.com"⟩] ∧
      (run_once h ts ["KILL_SWITCH", "SCAN_SITE domain=example.com"]
          initState).redisKill = true := by
  refine ⟨?_, ?_, ?_, fun st lines hk => run_once_killed h ts lines st hk,
    rfl, rfl⟩
  · intro st line t hc hv ht1 ht2
    simp only [processLine, hc, hv]
    unfold execute_command
    rw [if_neg ht1, if_neg ht2]
    simp
  · intro st line t hc hv ht1
    simp only [processLine, hc, hv]
    unfold execute_command
    rw [if_pos ht1]
    simp
  · intro st lines hk
    simp [run_once, check_kill_switch, hk]

/-- Witness for C10: a valid scan line is enqueued by `processLine` even from
a state in which both kill flags are already set (as they are right after a
KILL_SWITCH line in the same batch), and a cycle entered with the kill key
set processes nothing. -/
theorem C10_kill_switch_same_cycle_witness :
    (processLine (fun _ => "i") "t0" ⟨[], true, true, [], [], [], []⟩
        "SCAN_SITE domain=example.com").queue
      = lpush (mkQRecord (fun _ => "i") "t0"
          ⟨"SCAN_SITE", [("domain", "example.com")],
            "SCAN_SITE domain=example.com"⟩) [] ∧
      run_once (fun _ => "i") "t0" ["SCAN_SITE domain=example.com"]
          ⟨[], false, true, [], [], [], []⟩
        = ⟨[], true, true, [], [], [], []⟩ := by
  have h := C10_kill_switch_same_cycle (fun _ => "i") "t0"
  refine ⟨h.1 ⟨[], true, true, [], [], [], []⟩ "SCAN_SITE domain=example.com"
      ⟨"SCAN_SITE", [("domain", "example.com")], "SCAN_SITE domain=example.com"⟩
      (by decide) (by decide) (by decide) (by decide), ?_⟩
  have h4 := h.2.2.2.1 ⟨[], false, true, [], [], [], []⟩
    ["SCAN_SITE domain=example.com"] rfl
  rw [h4]

/-- A JSON value, as serialized by `json.dumps` onto the Redis queue. -/
inductive JVal where
  | str (s : String)
  | obj (fields : List (String × JVal))

/-- The params dict as a JSON object. -/
def jparams (ps : List (String × String)) : JVal :=
  .obj (ps.map fun kv => (kv.1, .str kv.2))

/-- The JSON object pushed by `Poller.push_to_queue`
(agents/command_poller.py): the validated command dict with `id` and `ts`
added before `lpush "agent_tasks"`. -/
def pollerWire (h : String → String) (ts : String) (task : Command) :
    List (String × JVal) :=
  [("type", .str task.type), ("params", jparams task.params),
   ("raw", .str task.raw), ("id", .str (h task.raw)), ("ts", .str ts)]

/-- The JSON object pushed by `post_task`
(server/agents/a2a_marketplace.py) onto the same `agent_tasks` list: job_id
is a fresh `uuid4`, supplied externally as `uid`. -/
def postTaskWire (uid task_type : String) (params : List (String × String))
    (posted_by : String) : List (String × JVal) :=
  [("job_id", .str uid), ("task_type", .str task_type),
   ("params", jparams params), ("status", .str "PENDING"),
   ("posted_by", .str posted_by)]

/-- Whether a serialized record carries a field of the given name. -/
def hasField (rec : List (String × JVal)) (k : String) : Bool :=
  (rec.lookup k).isSome

/-- C8 counterexample. `post_task` pushes records onto the same `agent_tasks`
queue that carry none of the fields `id`, `raw`, `ts` (its key names are
`job_id`, `task_type`, `params`, `status`, `posted_by`), and its job_id is a
random uuid, not a content hash: two posts of the same task with different
uuids get different ids. -/
theorem C8_wire_counterexample :
    hasField (postTaskWire "u-1" "START_CAMPAIGN" [("campaign_id", "c1")]
        "ProjectManagerAgent") "raw" = false ∧
      hasField (postTaskWire "u-1" "START_CAMPAIGN" [("campaign_id", "c1")]
        "ProjectManagerAgent") "id" = false ∧
      hasField (postTaskWire "u-1" "START_CAMPAIGN" [("campaign_id", "c1")]
        "ProjectManagerAgent") "ts" = false ∧
      (postTaskWire "u-1" "START_CAMPAIGN" [("campaign_id", "c1")]
          "ProjectManagerAgent").lookup "job_id"
        ≠ (postTaskWire "u-2" "START_CAMPAIGN" [("campaign_id", "c1")]
          "ProjectManagerAgent").lookup "job_id" := by
  refine ⟨rfl, rfl, rfl, ?_⟩
  intro hcontra
  have h1 : (postTaskWire "u-1" "START_CAMPAIGN" [("campaign_id", "c1")]
      "ProjectManagerAgent").lookup "job_id" = some (.str "u-1") := rfl
  have h2 : (postTaskWire "u-2" "START_CAMPAIGN" [("campaign_id", "c1")]
      "ProjectManagerAgent").lookup "job_id" = some (.str "u-2") := rfl
  rw [h1, h2] at hcontra
  injection hcontra with hc
  injection hc with hc2
  exact absurd hc2 (by decide)

/-- C8 (amended). Records pushed by `Poller.push_to_queue` carry exactly the
field set {type, params, raw, id, ts}, with `id` computed by a fixed function
of the raw command line (the truncated SHA-256 in the source), so two pushes
of the same raw line carry the same id; records pushed by `post_task`, by
contrast, carry {job_id, task_type, params, status, posted_by}, with a random
uuid for `job_id` and no raw, ts or id field. -/
theorem C8_wire_fields (h : String → String) (ts : String) (task : Command) :
    (pollerWire h ts task).map Prod.fst = ["type", "params", "raw", "id", "ts"] ∧
      (pollerWire h ts task).lookup "id" = some (.str (h task.raw)) ∧
      (∀ ts' task', task'.raw = task.raw →
        (pollerWire h ts' task').lookup "id"
          = (pollerWire h ts task).lookup "id") ∧
      (∀ uid ty ps pb, (postTaskWire uid ty ps pb).map Prod.fst
          = ["job_id", "task_type", "params", "status", "posted_by"] ∧
        hasField (postTaskWire uid ty ps pb) "raw" = false ∧
        hasField (postTaskWire uid ty ps pb) "ts" = false) := by
  refine ⟨rfl, rfl, ?_, ?_⟩
  · intro ts' task' hraw
    show some (JVal.str (h task'.raw)) = some (JVal.str (h task.raw))
    rw [hraw]
  · intro uid ty ps pb
    exact ⟨rfl, rfl, rfl⟩

/-- Witness for C8 (amended): two pushes of the same raw line by the poller
carry the same id, even at different timestamps. -/
theorem C8_wire_fields_witness :
    (pollerWire (fun s => s) "t0"
        ⟨"SCAN_SITE", [("domain", "example.com")],
          "SCAN_SITE domain=example.com"⟩).map Prod.fst
      = ["type", "params", "raw", "id", "ts"] ∧
      (pollerWire (fun s => s) "t1"
          ⟨"SCAN_SITE", [("domain", "example.com")],
            "SCAN_SITE domain=example.com"⟩).lookup "id"
        = (pollerWire (fun s => s) "t0"
            ⟨"SCAN_SITE", [("domain", "example.com")],
              "SCAN_SITE domain=example.com"⟩).lookup "id" := by
  have h := C8_wire_fields (fun s => s) "t0"
    ⟨"SCAN_SITE", [("domain", "example.com")], "SCAN_SITE domain=example.com"⟩
  exact ⟨h.1, h.2.2.1 "t1"
    ⟨"SCAN_SITE", [("domain", "example.com")], "SCAN_SITE domain=example.com"⟩
    rfl⟩

/-- A ledger entry written by `NotionKVClient.append_ledger`
(server/notion_client/client.py) when the AuditorAgent observes a Result:
the timestamp plus the keyword arguments passed by `AuditorAgent.run`. -/
structure LedgerEntry where
  timestamp : String
  action_id : String
  subject : String
  result : String
  latency_ms : Nat
  signed_by : String
  rationale : List (String × String)
deriving DecidableEq

/-- The entry `AuditorAgent.run` builds from one observed Result (the
rationale is `json.dumps(result_data)`, modelled as the data itself). -/
def mkLedgerEntry (ts : String) (res : Result) : LedgerEntry :=
  ⟨ts, res.job_id, "A2A Task Completion by " ++ res.completed_by, res.status,
   0, "AuditorAgent", res.result_data⟩

/-- `NotionKVClient.append_ledger`: the ledger file is opened in append mode
and one line is written at the end. -/
def append_ledger (ledger : List LedgerEntry) (e : LedgerEntry) :
    List LedgerEntry := ledger ++ [e]

/-- The AuditorAgent subscription loop over the Results it observes on the
`agent_results` channel, in observation order. -/
def auditorRun (ts : String) (ledger : List LedgerEntry)
    (results : List Result) : List LedgerEntry :=
  results.foldl (fun led res => append_ledger led (mkLedgerEntry ts res)) ledger

theorem auditorRun_eq (ts : String) (ledger : List LedgerEntry)
    (results : List Result) :
    auditorRun ts ledger results = ledger ++ results.map (mkLedgerEntry ts) := by
  induction results generalizing ledger with
  | nil => simp [auditorRun]
  | cons r rest ih =>
    simp only [auditorRun, List.foldl_cons, List.map_cons]
    rw [show ∀ l, List.foldl (fun led res => append_ledger led (mkLedgerEntry ts res)) l rest
        = auditorRun ts l rest from fun _ => rfl, ih]
    simp [append_ledger]

/-- C9. For every Result it observes, the auditor appends exactly one entry
at the end of the ledger: observing one Result grows the ledger by exactly
one entry, observing a stream of Results grows it by exactly their number,
the final ledger is the old ledger followed by one entry per observed Result
in order, and every previously written entry is left unchanged at its
position. -/
theorem C9_ledger_append_only (ts : String) (ledger : List LedgerEntry)
    (res : Result) (results : List Result) :
    auditorRun ts ledger [res] = ledger ++ [mkLedgerEntry ts res] ∧
      (auditorRun ts ledger results).length
        = ledger.length + results.length ∧
      auditorRun ts ledger results = ledger ++ results.map (mkLedgerEntry ts) ∧
      (∀ i, i < ledger.length →
        (auditorRun ts ledger results)[i]? = ledger[i]?) := by
  refine ⟨by simp [auditorRun_eq], by simp [auditorRun_eq], auditorRun_eq ts ledger results, ?_⟩
  intro i hi
  rw [auditorRun_eq]
  exact List.getElem?_append_left hi

/-- Witness for C9: observing two Results appends exactly two entries after
the existing one, which is unchanged. -/
theorem C9_ledger_append_only_witness :
    auditorRun "t1" [⟨"t0", "j0", "s0", "SUCCESS", 0, "AuditorAgent", []⟩]
        [⟨"j1", "SUCCESS", [], "SpecialistAgent"⟩]
      = [⟨"t0", "j0", "s0", "SUCCESS", 0, "AuditorAgent", []⟩,
         mkLedgerEntry "t1" ⟨"j1", "SUCCESS", [], "SpecialistAgent"⟩] ∧
      (auditorRun "t1" [⟨"t0", "j0", "s0", "SUCCESS", 0, "AuditorAgent", []⟩]
        [⟨"j1", "SUCCESS", [], "SpecialistAgent"⟩,
         ⟨"j2", "FAILED", [("error", "boom")], "SpecialistAgent"⟩])[0]?
      = some ⟨"t0", "j0", "s0", "SUCCESS", 0, "AuditorAgent", []⟩ := by
  have h := C9_ledger_append_only "t1"
    [⟨"t0", "j0", "s0", "SUCCESS", 0, "AuditorAgent", []⟩]
    ⟨"j1", "SUCCESS", [], "SpecialistAgent"⟩
    [⟨"j1", "SUCCESS", [], "SpecialistAgent"⟩,
     ⟨"j2", "FAILED", [("error", "boom")], "SpecialistAgent"⟩]
  refine ⟨h.1, ?_⟩
  rw [h.2.2.2 0 (by decide)]
  decide

end AgentKit
